import Mathlib

/-!
Shallow embedding of `use-mobile-agent.ts`: a React hook detecting whether the
current browser context is an iOS or Android WebView from the user-agent string.

The repository contains two variants of the hook:
  * variant 1 (lines 26-54): `WebViewStatus = { ios, android, combined }`,
    with `combined = ios && android`;
  * variant 2 (lines 83-109): `WebViewStatus = { ios, android }`.

Both variants run, inside a mount effect:
  `const userAgent = navigator.userAgent || navigator.vendor;`
  `const isAndroidWebView = /wv/.test(userAgent) || /Version\x2f[\d.]+.*Chrome/.test(userAgent);`
  `const isIOSWebView = /AppleWebKit/.test(userAgent) && !/Safari/.test(userAgent);`

Strings are embedded as `List Char`.  JavaScript regex semantics used here:
  * `/p/.test(s)` for a literal pattern `p` is substring containment;
  * `\d` matches exactly the ASCII digits `0`-`9`;
  * `[\d.]+` matches a nonempty run of characters that are digits or `.`;
  * `.` (outside a class, no `s` flag) matches any character except the four
    line terminators U+000A, U+000D, U+2028, U+2029;
  * the regex is unanchored: the test succeeds iff some substring matches.
`undefined` coerced to a string by `RegExp.test` is the string "undefined".
-/

/-- The token `wv` of the first Android regex. -/
def wvTok : List Char := "wv".data

/-- The token `Version/` of the legacy Android regex. -/
def verTok : List Char := "Version/".data

/-- The token `Chrome` of the legacy Android regex. -/
def chromeTok : List Char := "Chrome".data

/-- The token `AppleWebKit` of the iOS regex. -/
def appleTok : List Char := "AppleWebKit".data

/-- The token `Safari` of the iOS negative regex. -/
def safariTok : List Char := "Safari".data

/-- Boolean test: `p` is an initial segment of `s`. -/
def leadMatch : List Char → List Char → Bool
  | [], _ => true
  | _ :: _, [] => false
  | p :: ps, c :: cs => decide (p = c) && leadMatch ps cs

/-- Boolean substring test: the literal token `p` occurs contiguously in `s`.
This is `/p/.test(s)` for a pattern with no metacharacters. -/
def hasSub (p : List Char) : List Char → Bool
  | [] => leadMatch p []
  | c :: cs => leadMatch p (c :: cs) || hasSub p cs

/-- Strip the literal token `p` from the front of `s`, returning the rest. -/
def stripTok : List Char → List Char → Option (List Char)
  | [], s => some s
  | _ :: _, [] => none
  | p :: ps, c :: cs => if p = c then stripTok ps cs else none

/-- The four JavaScript line terminators, which `.` does not match. -/
def lineTerm (c : Char) : Bool :=
  decide (c = '\n') || decide (c = '\r') || decide (c = '\u2028') || decide (c = '\u2029')

/-- Character class `[\d.]` of the legacy Android regex: ASCII digit or dot. -/
def digitOrDot (c : Char) : Bool :=
  c.isDigit || decide (c = '.')

/-- Scanner for `.*Chrome` : succeeds iff `Chrome` occurs in `l` with only
non-line-terminator characters before that occurrence. -/
def chromeScan : List Char → Bool
  | [] => false
  | c :: cs => leadMatch chromeTok (c :: cs) || (!lineTerm c && chromeScan cs)

/-- Scanner for `[\d.]+.*Chrome` : by backtracking, this is equivalent to
"first character is a digit or dot, then `.*Chrome` matches the rest". -/
def afterVersion : List Char → Bool
  | [] => false
  | x :: xs => digitOrDot x && chromeScan xs

/-- Match the whole pattern `Version\x2f[\d.]+.*Chrome` at the start of `l`. -/
def matchVCAt (l : List Char) : Bool :=
  match stripTok verTok l with
  | some r => afterVersion r
  | none => false

/-- Unanchored test `/Version\x2f[\d.]+.*Chrome/.test(s)`: try every start position. -/
def versionChromeTest : List Char → Bool
  | [] => false
  | c :: cs => matchVCAt (c :: cs) || versionChromeTest cs

/-- Line 41: `const isAndroidWebView = /wv/.test(userAgent) || /Version\x2f[\d.]+.*Chrome/.test(userAgent);` -/
def isAndroidWebView (userAgent : List Char) : Bool :=
  hasSub wvTok userAgent || versionChromeTest userAgent

/-- Line 44: `const isIOSWebView = /AppleWebKit/.test(userAgent) && !/Safari/.test(userAgent);` -/
def isIOSWebView (userAgent : List Char) : Bool :=
  hasSub appleTok userAgent && !hasSub safariTok userAgent

/-- Line 97 (second variant, textually identical to line 41). -/
def isAndroidWebView2 (userAgent : List Char) : Bool :=
  hasSub wvTok userAgent || versionChromeTest userAgent

/-- Line 100 (second variant, textually identical to line 44). -/
def isIOSWebView2 (userAgent : List Char) : Bool :=
  hasSub appleTok userAgent && !hasSub safariTok userAgent

/-- Line 26: `type WebViewStatus = { ios: boolean; android: boolean; combined: boolean };` -/
structure WebViewStatus where
  ios : Bool
  android : Bool
  combined : Bool
deriving DecidableEq, Repr

/-- Line 83 (second variant): `type WebViewStatus = { ios: boolean; android: boolean };` -/
structure WebViewStatus2 where
  ios : Bool
  android : Bool
deriving DecidableEq, Repr

/-- Lines 46-50: the record passed to `setIsWebView` in the first variant. -/
def detectWebView (userAgent : List Char) : WebViewStatus :=
  { ios := isIOSWebView userAgent
    android := isAndroidWebView userAgent
    combined := isIOSWebView userAgent && isAndroidWebView userAgent }

/-- Lines 102-105: the record passed to `setIsWebView` in the second variant. -/
def detectWebView2 (userAgent : List Char) : WebViewStatus2 :=
  { ios := isIOSWebView2 userAgent
    android := isAndroidWebView2 userAgent }

/-- The ambient `navigator`-like object: `userAgent` and `vendor` properties,
each possibly `undefined` (`none`) or a string. -/
structure Navigator where
  userAgent : Option (List Char)
  vendor : Option (List Char)

/-- JavaScript `a || b` on possibly-undefined strings: returns `a` unless `a`
is falsy (`undefined` or the empty string), else `b`. -/
def jsOr (a b : Option (List Char)) : Option (List Char) :=
  match a with
  | some s => if s.isEmpty then b else some s
  | none => b

/-- `RegExp.test` coerces its argument to a string; `undefined` becomes the
literal string "undefined". -/
def toTestString : Option (List Char) → List Char
  | some s => s
  | none => "undefined".data

/-- Lines 36-51: the status computed by the mount effect of the first variant,
as a function of the ambient navigator. -/
def useMobileAgentEffect (nav : Navigator) : WebViewStatus :=
  detectWebView (toTestString (jsOr nav.userAgent nav.vendor))

/-- Lines 92-106: the status computed by the mount effect of the second variant. -/
def useMobileAgentEffect2 (nav : Navigator) : WebViewStatus2 :=
  detectWebView2 (toTestString (jsOr nav.userAgent nav.vendor))

/-- Modelled from React's documented `useState`/`useEffect` semantics, which the
hook relies on: the first render returns the initial state passed to `useState`
(lines 30-34), the effect runs after mount, and the state it sets is what a
subsequent render returns.  First component: value returned by the first
render; second component: value returned by a render after the effect ran. -/
def useMobileAgentRenders (nav : Navigator) : WebViewStatus × WebViewStatus :=
  ({ ios := false, android := false, combined := false }, useMobileAgentEffect nav)

/-- Render sequence of the second variant (initial state from lines 87-90). -/
def useMobileAgentRenders2 (nav : Navigator) : WebViewStatus2 × WebViewStatus2 :=
  ({ ios := false, android := false }, useMobileAgentEffect2 nav)

/-- Declarative reading of the legacy Android regex: some occurrence of
`Version/` is followed by a nonempty run `b` of digit-or-dot characters, then a
gap `c` free of line terminators, then `Chrome`. -/
def LegacyAndroidPattern (s : List Char) : Prop :=
  ∃ a b c d, s = a ++ verTok ++ b ++ c ++ chromeTok ++ d ∧
    b ≠ [] ∧ (∀ x ∈ b, digitOrDot x = true) ∧ (∀ x ∈ c, lineTerm x = false)

/-- Substring containment, declaratively. -/
def ContainsSub (p s : List Char) : Prop :=
  ∃ u v, s = u ++ p ++ v

/-! ### Characterization lemmas for the scanners -/

theorem leadMatch_iff (p s : List Char) : leadMatch p s = true ↔ ∃ t, s = p ++ t := by
  induction p generalizing s with
  | nil => simp [leadMatch]
  | cons a ps ih =>
    cases s with
    | nil => simp [leadMatch]
    | cons b bs =>
      simp only [leadMatch, Bool.and_eq_true, decide_eq_true_eq, ih, List.cons_append,
        List.cons.injEq]
      constructor
      · rintro ⟨rfl, t, rfl⟩; exact ⟨t, rfl, rfl⟩
      · rintro ⟨t, rfl, rfl⟩; exact ⟨rfl, t, rfl⟩

theorem hasSub_iff (p s : List Char) : hasSub p s = true ↔ ContainsSub p s := by
  unfold ContainsSub
  induction s with
  | nil =>
    simp only [hasSub, leadMatch_iff]
    constructor
    · rintro ⟨t, ht⟩; exact ⟨[], t, by simpa using ht⟩
    · rintro ⟨u, v, h⟩
      have h' : u = [] ∧ p = [] ∧ v = [] := by
        simpa [List.append_eq_nil, and_assoc] using h.symm
      exact ⟨v, by simp [h'.2.1, h'.2.2]⟩
  | cons c cs ih =>
    simp only [hasSub, Bool.or_eq_true, leadMatch_iff, ih]
    constructor
    · rintro (⟨t, ht⟩ | ⟨u, v, h⟩)
      · exact ⟨[], t, by simpa using ht⟩
      · exact ⟨c :: u, v, by simp [h]⟩
    · rintro ⟨u, v, h⟩
      cases u with
      | nil => exact Or.inl ⟨v, by simpa using h⟩
      | cons x u' =>
        simp only [List.cons_append, List.cons.injEq] at h
        exact Or.inr ⟨u', v, h.2⟩

theorem stripTok_eq_some (p s r : List Char) : stripTok p s = some r ↔ s = p ++ r := by
  induction p generalizing s with
  | nil => simp [stripTok]
  | cons a ps ih =>
    cases s with
    | nil => simp [stripTok]
    | cons b bs =>
      simp only [stripTok, List.cons_append, List.cons.injEq]
      by_cases hab : a = b
      · subst hab; simp [ih]
      · rw [if_neg hab]
        constructor
        · intro h; exact absurd h (by simp)
        · rintro ⟨rfl, -⟩; exact absurd rfl hab

theorem chromeScan_iff (l : List Char) :
    chromeScan l = true ↔ ∃ g d, l = g ++ chromeTok ++ d ∧ ∀ x ∈ g, lineTerm x = false := by
  induction l with
  | nil =>
    refine ⟨fun h => absurd h (by simp [chromeScan]), fun hex => ?_⟩
    exfalso
    obtain ⟨g, d, h, -⟩ := hex
    have h' : g = [] ∧ chromeTok = [] ∧ d = [] := by
      simpa [List.append_eq_nil] using h.symm
    exact absurd h'.2.1 (by decide)
  | cons c cs ih =>
    simp only [chromeScan, Bool.or_eq_true, Bool.and_eq_true, Bool.not_eq_true', leadMatch_iff, ih]
    constructor
    · rintro (⟨t, ht⟩ | ⟨hc, g, d, rfl, hg⟩)
      · exact ⟨[], t, by simpa using ht, by simp⟩
      · refine ⟨c :: g, d, by simp, ?_⟩
        intro x hx
        rcases List.mem_cons.mp hx with rfl | hx
        · exact hc
        · exact hg x hx
    · rintro ⟨g, d, h, hg⟩
      cases g with
      | nil => exact Or.inl ⟨d, by simpa using h⟩
      | cons y g' =>
        simp only [List.cons_append, List.cons.injEq] at h
        obtain ⟨rfl, h2⟩ := h
        refine Or.inr ⟨hg c (List.mem_cons_self c g'), g', d, h2, ?_⟩
        intro x hx
        exact hg x (List.mem_cons_of_mem c hx)

theorem digitOrDot_not_lineTerm (c : Char) (h : digitOrDot c = true) : lineTerm c = false := by
  cases hl : lineTerm c
  · rfl
  · exfalso
    have hc : c = '\n' ∨ c = '\r' ∨ c = ' ' ∨ c = ' ' := by
      simpa [lineTerm, or_assoc] using hl
    rcases hc with rfl | rfl | rfl | rfl <;> exact absurd h (by decide)

theorem afterVersion_iff (r : List Char) :
    afterVersion r = true ↔ ∃ b c d, r = b ++ c ++ chromeTok ++ d ∧ b ≠ [] ∧
      (∀ x ∈ b, digitOrDot x = true) ∧ (∀ x ∈ c, lineTerm x = false) := by
  cases r with
  | nil =>
    refine ⟨fun h => absurd h (by simp [afterVersion]), fun hex => ?_⟩
    exfalso
    obtain ⟨b, c, d, h, hb, -, -⟩ := hex
    have h' : b = [] ∧ c = [] ∧ chromeTok = [] ∧ d = [] := by
      simpa [List.append_eq_nil] using h.symm
    exact hb h'.1
  | cons x xs =>
    simp only [afterVersion, Bool.and_eq_true, chromeScan_iff]
    constructor
    · rintro ⟨hx, g, d, rfl, hg⟩
      exact ⟨[x], g, d, by simp, by simp, by simpa using hx, hg⟩
    · rintro ⟨b, c, d, h, hb, hbd, hcl⟩
      cases b with
      | nil => exact absurd rfl hb
      | cons y b' =>
        simp only [List.cons_append, List.cons.injEq] at h
        obtain ⟨rfl, h2⟩ := h
        refine ⟨hbd x (List.mem_cons_self x b'), b' ++ c, d, ?_, ?_⟩
        · rw [h2]
        · intro z hz
          rcases List.mem_append.mp hz with hz | hz
          · exact digitOrDot_not_lineTerm z (hbd z (List.mem_cons_of_mem x hz))
          · exact hcl z hz

theorem matchVCAt_some (r : List Char) : matchVCAt (verTok ++ r) = afterVersion r := by
  unfold matchVCAt
  rw [(stripTok_eq_some verTok (verTok ++ r) r).mpr rfl]

theorem matchVCAt_iff (l : List Char) :
    matchVCAt l = true ↔ ∃ b c d, l = verTok ++ b ++ c ++ chromeTok ++ d ∧ b ≠ [] ∧
      (∀ x ∈ b, digitOrDot x = true) ∧ (∀ x ∈ c, lineTerm x = false) := by
  cases hst : stripTok verTok l with
  | none =>
    constructor
    · intro h
      unfold matchVCAt at h
      rw [hst] at h
      exact absurd h (by simp)
    · rintro ⟨b, c, d, rfl, -, -, -⟩
      have hsome : stripTok verTok (verTok ++ b ++ c ++ chromeTok ++ d)
          = some (b ++ c ++ chromeTok ++ d) :=
        (stripTok_eq_some _ _ _).mpr (by simp [List.append_assoc])
      rw [hst] at hsome
      exact absurd hsome (by simp)
  | some r =>
    have hl : l = verTok ++ r := (stripTok_eq_some _ _ _).mp hst
    subst hl
    rw [matchVCAt_some, afterVersion_iff]
    constructor
    · rintro ⟨b, c, d, rfl, hb, hbd, hcl⟩
      exact ⟨b, c, d, by simp [List.append_assoc], hb, hbd, hcl⟩
    · rintro ⟨b, c, d, h, hb, hbd, hcl⟩
      refine ⟨b, c, d, ?_, hb, hbd, hcl⟩
      have h' : verTok ++ r = verTok ++ (b ++ c ++ chromeTok ++ d) := by
        rw [h]; simp [List.append_assoc]
      exact List.append_cancel_left h'

theorem versionChromeTest_iff (s : List Char) :
    versionChromeTest s = true ↔ LegacyAndroidPattern s := by
  unfold LegacyAndroidPattern
  induction s with
  | nil =>
    constructor
    · intro h; exact absurd h (by simp [versionChromeTest])
    · rintro ⟨a, b, c, d, h, hb, -, -⟩
      exfalso
      have h' : a = [] ∧ verTok = [] ∧ b = [] ∧ c = [] ∧ chromeTok = [] ∧ d = [] := by
        simpa [List.append_eq_nil, and_assoc] using h.symm
      exact absurd h'.2.1 (by decide)
  | cons x xs ih =>
    simp only [versionChromeTest, Bool.or_eq_true, matchVCAt_iff, ih]
    constructor
    · rintro (⟨b, c, d, h, hb, hbd, hcl⟩ | ⟨a, b, c, d, h, hb, hbd, hcl⟩)
      · exact ⟨[], b, c, d, by simpa using h, hb, hbd, hcl⟩
      · exact ⟨x :: a, b, c, d, by simp [h], hb, hbd, hcl⟩
    · rintro ⟨a, b, c, d, h, hb, hbd, hcl⟩
      cases a with
      | nil =>
        refine Or.inl ⟨b, c, d, ?_, hb, hbd, hcl⟩
        simpa using h
      | cons y a' =>
        simp only [List.cons_append, List.cons.injEq] at h
        obtain ⟨rfl, h2⟩ := h
        exact Or.inr ⟨a', b, c, d, h2, hb, hbd, hcl⟩

theorem isAndroidWebView_iff (s : List Char) :
    isAndroidWebView s = true ↔ ContainsSub wvTok s ∨ LegacyAndroidPattern s := by
  simp only [isAndroidWebView, Bool.or_eq_true, hasSub_iff, versionChromeTest_iff]

theorem isIOSWebView_iff (s : List Char) :
    isIOSWebView s = true ↔ ContainsSub appleTok s ∧ ¬ ContainsSub safariTok s := by
  simp only [isIOSWebView, Bool.and_eq_true, Bool.not_eq_true', Bool.eq_false_iff, ne_eq,
    hasSub_iff]

/-! ### Claim theorems -/

/-- C1 (counterexample): the claimed characterization of the android flag fails in
both directions.  First, `"Version/.Chrome"` yields android = true although it
contains no `wv` and not a single digit — so no "dotted numeric version" — because
the class `[\d.]+` of the regex also accepts a bare dot.  Second,
`"Version/2.3\nChrome"` decomposes as `Version/` + `2.3` + a later `Chrome`, yet
yields android = false, because `.*` in a JavaScript regex does not cross line
terminators, so `Chrome` "anywhere" later is not sufficient. -/
theorem android_claimed_characterization_counterexample :
    (isAndroidWebView ("Version/.Chrome".data) = true ∧
      hasSub wvTok ("Version/.Chrome".data) = false ∧
      (∀ x ∈ ("Version/.Chrome".data), x.isDigit = false)) ∧
    (("Version/2.3\nChrome".data =
        "Version/".data ++ "2".data ++ ".".data ++ "3".data ++ "\n".data ++ "Chrome".data) ∧
      isAndroidWebView ("Version/2.3\nChrome".data) = false) := by
  decide

/-- C1 (amended): for every user-agent string `s`, the android flag is true iff
`s` contains the substring `wv`, or `s` contains an occurrence of `Version/`
followed by a nonempty run of digit-or-dot characters followed — with no line
terminator in between — by `Chrome`; no other string yields android = true. -/
theorem android_flag_characterization (s : List Char) :
    isAndroidWebView s = true ↔ ContainsSub wvTok s ∨ LegacyAndroidPattern s :=
  isAndroidWebView_iff s

/-- C2: for every user-agent string `s`, the ios flag is true iff `s` contains
the substring `AppleWebKit` and does not contain the substring `Safari`; in
particular any string containing the fused token `AppleWebKitSafari` yields
ios = false. -/
theorem ios_flag_characterization :
    (∀ s : List Char, isIOSWebView s = true ↔
        ContainsSub appleTok s ∧ ¬ ContainsSub safariTok s) ∧
    (∀ s : List Char, ContainsSub ("AppleWebKitSafari".data) s → isIOSWebView s = false) := by
  refine ⟨isIOSWebView_iff, ?_⟩
  rintro s ⟨u, v, rfl⟩
  have hsa : hasSub safariTok (u ++ "AppleWebKitSafari".data ++ v) = true := by
    rw [hasSub_iff]
    refine ⟨u ++ appleTok, v, ?_⟩
    have hsplit : "AppleWebKitSafari".data = appleTok ++ safariTok := by decide
    rw [hsplit]
    simp [List.append_assoc]
  unfold isIOSWebView
  rw [hsa]
  simp

/-- Witness for C2 at a concrete input containing the fused token. -/
theorem ios_flag_characterization_witness :
    isIOSWebView ("xAppleWebKitSafariy".data) = false :=
  ios_flag_characterization.2 ("xAppleWebKitSafariy".data) ⟨"x".data, "y".data, by decide⟩

/-- C3: when the user-agent source is unavailable — `userAgent` undefined or
empty, and likewise the `vendor` fallback — detection (a total function, so no
exception is possible) yields ios = false and android = false, and
combined = false in the variant that defines it. -/
theorem absent_user_agent_all_false (ua vd : Option (List Char))
    (hua : ua = none ∨ ua = some []) (hv : vd = none ∨ vd = some []) :
    useMobileAgentEffect ⟨ua, vd⟩ = ⟨false, false, false⟩ ∧
    useMobileAgentEffect2 ⟨ua, vd⟩ = ⟨false, false⟩ := by
  rcases hua with rfl | rfl <;> rcases hv with rfl | rfl <;> exact ⟨by decide, by decide⟩

/-- Witness for C3 with both properties undefined. -/
theorem absent_user_agent_all_false_witness :
    useMobileAgentEffect ⟨none, none⟩ = ⟨false, false, false⟩ ∧
    useMobileAgentEffect2 ⟨none, none⟩ = ⟨false, false⟩ :=
  absent_user_agent_all_false none none (Or.inl rfl) (Or.inl rfl)

/-- C4: for every input string, the `combined` field of the returned status
equals the conjunction of the `ios` and `android` fields of that status. -/
theorem combined_eq_ios_and_android (s : List Char) :
    (detectWebView s).combined = ((detectWebView s).ios && (detectWebView s).android) :=
  rfl

/-- C5 (counterexample): the universally quantified android sufficiency claim
fails for `Version/<digits>.<digits>` followed by `Chrome` "anywhere" after the
version token: in `"Version/1.0\nChrome"` the token `Chrome` does appear after
the version token, yet android = false, because `.*` in a JavaScript regex does
not match across line terminators. -/
theorem android_sufficiency_counterexample :
    ("Version/1.0\nChrome".data =
        "Version/".data ++ "1".data ++ ".".data ++ "0".data ++ "\n".data ++ "Chrome".data) ∧
    hasSub chromeTok ("\nChrome".data) = true ∧
    isAndroidWebView ("Version/1.0\nChrome".data) = false := by
  decide

/-- C5 (amended): every string containing the substring `wv` yields
android = true; and every string containing `Version/<digits>.<digits>` with
`Chrome` appearing later, with no line terminator between the version token and
that `Chrome`, yields android = true. -/
theorem android_sufficient_conditions (s : List Char) :
    (ContainsSub wvTok s → isAndroidWebView s = true) ∧
    (∀ a d1 d2 g r : List Char,
      s = a ++ verTok ++ d1 ++ ['.'] ++ d2 ++ g ++ chromeTok ++ r →
      d1 ≠ [] → (∀ x ∈ d1, x.isDigit = true) →
      d2 ≠ [] → (∀ x ∈ d2, x.isDigit = true) →
      (∀ x ∈ g, lineTerm x = false) →
      isAndroidWebView s = true) := by
  constructor
  · intro hwv
    exact (isAndroidWebView_iff s).mpr (Or.inl hwv)
  · intro a d1 d2 g r hs hd1 hdig1 hd2 hdig2 hg
    refine (isAndroidWebView_iff s).mpr (Or.inr ⟨a, d1 ++ ['.'] ++ d2, g, r, ?_, ?_, ?_, hg⟩)
    · rw [hs]; simp [List.append_assoc]
    · intro hnil
      rcases List.append_eq_nil.mp hnil with ⟨h1, -⟩
      rcases List.append_eq_nil.mp h1 with ⟨-, h2⟩
      exact absurd h2 (by simp)
    · intro x hx
      rcases List.mem_append.mp hx with hx | hx
      · rcases List.mem_append.mp hx with hx | hx
        · simp [digitOrDot, hdig1 x hx]
        · have hxd : x = '.' := by simpa using hx
          subst hxd; decide
      · simp [digitOrDot, hdig2 x hx]

/-- Witness for C5: a string with `wv` and a legacy `Version/4.0 Chrome` string. -/
theorem android_sufficient_conditions_witness :
    isAndroidWebView ("a wv b".data) = true ∧
    isAndroidWebView ("Version/4.0 Chrome!".data) = true := by
  constructor
  · exact (android_sufficient_conditions ("a wv b".data)).1 ⟨"a ".data, " b".data, by decide⟩
  · exact (android_sufficient_conditions ("Version/4.0 Chrome!".data)).2
      [] ['4'] ['0'] [' '] ("!".data) (by decide) (by decide) (by decide) (by decide)
      (by decide) (by decide)

/-- C6: the detector reproduces the four concrete scenarios of the
specification: the Android WebView user agent ending in `wv`; the iOS WebView
user agent without `Safari`; iOS Safari with `Version/14.0` but no `Chrome`;
and the empty string (all-false, including `combined` in the variant that
defines it). -/
theorem concrete_scenarios :
    detectWebView ("Mozilla/5.0 (Linux; Android 10) AppleWebKit/537.36 (KHTML, like Gecko) Version/4.0 Chrome/66.0.3359.126 Mobile Safari/537.36 wv".data)
        = ⟨false, true, false⟩ ∧
    detectWebView ("Mozilla/5.0 (iPhone; CPU iPhone OS 14_0 like Mac OS X) AppleWebKit/605.1.15 (KHTML, like Gecko) Mobile/15E148".data)
        = ⟨true, false, false⟩ ∧
    detectWebView ("Mozilla/5.0 (iPhone; CPU iPhone OS 14_0 like Mac OS X) AppleWebKit/605.1.15 (KHTML, like Gecko) Version/14.0 Mobile/15E148 Safari/604.1".data)
        = ⟨false, false, false⟩ ∧
    detectWebView ("".data) = ⟨false, false, false⟩ ∧
    detectWebView2 ("".data) = ⟨false, false⟩ := by
  decide

/-- C7: the two variants of the hook compute identical ios and android flags on
every input; the first variant additionally exposes `combined`, which is the
conjunction of the two shared flags. -/
theorem variants_equivalent (s : List Char) :
    isIOSWebView2 s = isIOSWebView s ∧
    isAndroidWebView2 s = isAndroidWebView s ∧
    (detectWebView s).ios = (detectWebView2 s).ios ∧
    (detectWebView s).android = (detectWebView2 s).android ∧
    (detectWebView s).combined = ((detectWebView2 s).ios && (detectWebView2 s).android) :=
  ⟨rfl, rfl, rfl, rfl, rfl⟩

/-- C8: detection is a deterministic function of the input string: equal inputs
produce bit-identical status records in both variants.  Purity and absence of
hidden state are structural: `detectWebView` and `detectWebView2` are total
functions of the string alone. -/
theorem detection_deterministic (s t : List Char) (h : s = t) :
    detectWebView s = detectWebView t ∧ detectWebView2 s = detectWebView2 t := by
  subst h
  exact ⟨rfl, rfl⟩

/-- Witness for C8 at a concrete repeated invocation. -/
theorem detection_deterministic_witness :
    detectWebView ("wv".data) = detectWebView ("wv".data) ∧
    detectWebView2 ("wv".data) = detectWebView2 ("wv".data) :=
  detection_deterministic ("wv".data) ("wv".data) rfl

/-- C9: when `userAgent` is the empty string and `vendor` is a nonempty string,
detection runs on the vendor string; in particular a vendor value containing
`wv` yields android = true even though `userAgent` is empty. -/
theorem vendor_fallback (v : List Char) (hv : v ≠ []) :
    useMobileAgentEffect ⟨some [], some v⟩ = detectWebView v ∧
    useMobileAgentEffect2 ⟨some [], some v⟩ = detectWebView2 v ∧
    (ContainsSub wvTok v → (useMobileAgentEffect ⟨some [], some v⟩).android = true) := by
  refine ⟨rfl, rfl, ?_⟩
  intro hwv
  have ha : isAndroidWebView v = true := (isAndroidWebView_iff v).mpr (Or.inl hwv)
  show (detectWebView v).android = true
  simp [detectWebView, ha]

/-- Witness for C9: vendor string `wv`, empty `userAgent`. -/
theorem vendor_fallback_witness :
    (useMobileAgentEffect ⟨some [], some ("wv".data)⟩).android = true :=
  (vendor_fallback ("wv".data) (by decide)).2.2 ⟨[], [], by decide⟩

/-- C10: on the hook's first render, before the mount effect has run, the
returned status is all-false in both variants, regardless of the environment's
navigator; the detected flags are what a render after the effect returns. -/
theorem first_render_all_false (nav : Navigator) :
    (useMobileAgentRenders nav).1 = ⟨false, false, false⟩ ∧
    (useMobileAgentRenders2 nav).1 = ⟨false, false⟩ ∧
    (useMobileAgentRenders nav).2 = useMobileAgentEffect nav ∧
    (useMobileAgentRenders2 nav).2 = useMobileAgentEffect2 nav :=
  ⟨rfl, rfl, rfl, rfl⟩
